import Mathlib

/-!
Verification development for the react-sse library (src/lib/react_sse.ts).

The TypeScript source is shallowly embedded: the reactive `Store`, the
`SSEManager` connection logic, the URL construction, the query hooks
(`useSSEEvents`, `useSSEEvent`, `useLiveSSEEvent`) and the per-tab UID
utilities (`getClientUid`, `isClientUid`) become pure Lean functions.
Stateful code is modelled by explicit state passing; side channels
(subscriber notification, host callbacks, transport opening) are modelled
as explicit action/effect traces; JavaScript truthiness tests are
transcribed literally.
-/

namespace ReactSSE

/-- Connection lifecycle status, from `SSEConnectionStatus` in the source. -/
inductive SSEConnectionStatus where
  | idle
  | connecting
  | «open»
  | closed
  | error
deriving DecidableEq, Repr

/-- Event record, from the `SSEMessage` interface. The best-effort JSON
`data` field is modelled as an optional opaque payload string; `timestamp`
is the `Date.now()` millisecond value. -/
structure SSEMessage where
  connectionId : String
  type : String
  dataStr : String
  data : Option String
  lastEventId : Option String
  timestamp : Nat
  uid : Option String
deriving DecidableEq, Repr

/-- Per-connection state, from the `SSEConnectionState` interface. -/
structure SSEConnectionState where
  id : String
  url : String
  status : SSEConnectionStatus
  lastEvent : Option SSEMessage
  error : Option String
deriving DecidableEq, Repr

/-- The store's state, from the `InternalState` interface: a map of
connection states keyed by id, and the merged event log. The JS object
`Record<string, SSEConnectionState>` is modelled as a lookup function. -/
structure InternalState where
  connections : String → Option SSEConnectionState
  events : List SSEMessage

/-- Initial store state: `{ connections: {}, events: [] }`. -/
def initialState : InternalState :=
  { connections := fun _ => none, events := [] }

/-- Store.setConnection: replaces the entry for `c.id` wholesale
(JS spread `{ ...connections, [connect.id]: connect }`). -/
def setConnection (s : InternalState) (c : SSEConnectionState) : InternalState :=
  { s with connections := fun k => if k = c.id then some c else s.connections k }

/-- Store.removeConnection: deletes the entry for `id`
(JS rest-destructuring `const { [id]: _removed, ...rest }`). -/
def removeConnection (s : InternalState) (id : String) : InternalState :=
  { s with connections := fun k => if k = id then none else s.connections k }

/-- The splice step of Store.pushEvent:
`if (events.length > maxEvents) events.splice(0, events.length - maxEvents)`. -/
def trimEvents (maxEvents : Nat) (l : List SSEMessage) : List SSEMessage :=
  if maxEvents < l.length then l.drop (l.length - maxEvents) else l

/-- Store.pushEvent: appends `msg` to the log, trims to capacity, and
upserts the owning connection's entry, spreading the existing entry (or the
default `{ id, url: "", status: "open" }`) and overriding `lastEvent` and
`status`. -/
def pushEvent (maxEvents : Nat) (s : InternalState) (msg : SSEMessage) : InternalState :=
  { events := trimEvents maxEvents (s.events ++ [msg])
    connections := fun k =>
      if k = msg.connectionId then
        some (match s.connections msg.connectionId with
          | some c => { c with lastEvent := some msg, status := .«open» }
          | none =>
            { id := msg.connectionId, url := "", status := .«open»
              lastEvent := some msg, error := none })
      else s.connections k }

/-- A primitive store mutation step: either an assignment to `this.state`
or a call to `this.notify()`. Used to express "notifies exactly once". -/
inductive StoreAction where
  | setState (s : InternalState)
  | notify

/-- Counts the notify steps in a trace of store actions. -/
def notifyCount (tr : List StoreAction) : Nat :=
  tr.countP (fun a => match a with | .notify => true | _ => false)

/-- The body of Store.pushEvent as a trace of primitive steps:
one state assignment followed by one `notify()` call. -/
def pushEventActions (maxEvents : Nat) (s : InternalState) (msg : SSEMessage) :
    List StoreAction :=
  [.setState (pushEvent maxEvents s msg), .notify]

/-- A sequence of `pushEvent` calls (left fold over the message list). -/
def runPushEvents (maxEvents : Nat) (s : InternalState) (msgs : List SSEMessage) :
    InternalState :=
  msgs.foldl (pushEvent maxEvents) s

theorem trimEvents_eq_drop (C : Nat) (l : List SSEMessage) :
    trimEvents C l = l.drop (l.length - C) := by
  unfold trimEvents
  split
  · rfl
  · next h =>
    have hz : l.length - C = 0 := by omega
    simp [hz]

theorem runPushEvents_cons (C : Nat) (s : InternalState) (m : SSEMessage)
    (ms : List SSEMessage) :
    runPushEvents C s (m :: ms) = runPushEvents C (pushEvent C s m) ms := rfl

theorem pushEvent_events (C : Nat) (s : InternalState) (m : SSEMessage) :
    (pushEvent C s m).events = trimEvents C (s.events ++ [m]) := rfl

theorem runPushEvents_events (C : Nat) :
    ∀ (msgs : List SSEMessage) (s : InternalState), s.events.length ≤ C →
      (runPushEvents C s msgs).events
        = (s.events ++ msgs).drop ((s.events ++ msgs).length - C) := by
  intro msgs
  induction msgs with
  | nil =>
    intro s hs
    have hz : s.events.length - C = 0 := by omega
    simp [runPushEvents, hz]
  | cons m ms ih =>
    intro s hs
    rw [runPushEvents_cons]
    set k := (s.events ++ [m]).length - C with hk
    have hlen1 : (s.events ++ [m]).length = s.events.length + 1 := by simp
    have hkle : k ≤ (s.events ++ [m]).length := by omega
    have hknew : (pushEvent C s m).events = (s.events ++ [m]).drop k := by
      rw [pushEvent_events, trimEvents_eq_drop]
    have hlen2 : (pushEvent C s m).events.length ≤ C := by
      rw [hknew]
      simp only [List.length_drop]
      omega
    rw [ih _ hlen2, hknew]
    rw [← List.drop_append_of_le_length hkle, List.drop_drop]
    have hx : s.events ++ [m] ++ ms = s.events ++ m :: ms := by simp
    rw [hx]
    congr 1
    simp only [List.length_drop, List.length_append, List.length_cons]
    omega

/-- C1: for every capacity `C` and every sequence of appendEvent calls on a
fresh store, the log length never exceeds `C`, and the resulting log is
exactly the suffix of the appended events in arrival order (oldest entries
dropped first, relative order of the remainder preserved). -/
theorem pushEvent_ring_buffer (C : Nat) (msgs : List SSEMessage) :
    (runPushEvents C initialState msgs).events = msgs.drop (msgs.length - C)
      ∧ (runPushEvents C initialState msgs).events.length ≤ C := by
  have h := runPushEvents_events C msgs initialState (by simp [initialState])
  have he : initialState.events = [] := rfl
  rw [he, List.nil_append] at h
  refine ⟨h, ?_⟩
  rw [h]
  simp only [List.length_drop]
  omega

/-- Filter argument of the `useSSEEvents` hook (`EventsFilter` in the
source). The `predicate` is carried as a Lean function. -/
structure EventsFilter where
  connectionIds : Option (List String)
  types : Option (List String)
  predicate : Option (SSEMessage → Bool)
  sinceTs : Option Nat

/-- Selector body of `useSSEEvents`: the staged filtering from the hook's
memo. JavaScript truthiness is transcribed literally: the `sinceTs` stage is
skipped when `sinceTs` is absent or `0`, and the `connectionIds`/`types`
stages are skipped when the list is absent or empty
(`filter.connectionIds && filter.connectionIds.length`). -/
def sinceStage (f : EventsFilter) (events : List SSEMessage) : List SSEMessage :=
  match f.sinceTs with
  | some t => if t ≠ 0 then events.filter (fun e => decide (t ≤ e.timestamp)) else events
  | none => events

def connStage (f : EventsFilter) (out : List SSEMessage) : List SSEMessage :=
  match f.connectionIds with
  | some ids => if ids ≠ [] then out.filter (fun e => ids.contains e.connectionId) else out
  | none => out

def typeStage (f : EventsFilter) (out : List SSEMessage) : List SSEMessage :=
  match f.types with
  | some ts => if ts ≠ [] then out.filter (fun e => ts.contains e.type) else out
  | none => out

def predStage (f : EventsFilter) (out : List SSEMessage) : List SSEMessage :=
  match f.predicate with
  | some p => out.filter p
  | none => out

def useSSEEvents (filter? : Option EventsFilter) (events : List SSEMessage) :
    List SSEMessage :=
  match filter? with
  | none => events
  | some f => predStage f (typeStage f (connStage f (sinceStage f events)))

/-- The conjunctive per-event condition exactly as the specification words
it: every supplied component must hold (timestamp at least `sinceTs`,
connection id in `connectionIds`, type in `types`, predicate true). Stated
from the spec, for comparison with the code's `useSSEEvents`. -/
def claimFilterMatches (f : EventsFilter) (e : SSEMessage) : Bool :=
  (match f.sinceTs with
    | some t => decide (t ≤ e.timestamp)
    | none => true)
  && ((match f.connectionIds with
    | some ids => ids.contains e.connectionId
    | none => true)
  && ((match f.types with
    | some ts => ts.contains e.type
    | none => true)
  && (match f.predicate with
    | some p => p e
    | none => true)))

/-- The sinceTs component as the code applies it. -/
def sincePass (f : EventsFilter) (e : SSEMessage) : Bool :=
  match f.sinceTs with
  | some t => decide (t ≤ e.timestamp)
  | none => true

/-- The connection-id component as the code applies it: an empty supplied
list imposes no constraint. -/
def connPass (f : EventsFilter) (e : SSEMessage) : Bool :=
  match f.connectionIds with
  | some ids => ids.isEmpty || ids.contains e.connectionId
  | none => true

/-- The type component as the code applies it: an empty supplied list
imposes no constraint. -/
def typePass (f : EventsFilter) (e : SSEMessage) : Bool :=
  match f.types with
  | some ts => ts.isEmpty || ts.contains e.type
  | none => true

/-- The predicate component as the code applies it. -/
def predPass (f : EventsFilter) (e : SSEMessage) : Bool :=
  match f.predicate with
  | some p => p e
  | none => true

/-- The per-event condition actually enforced by `useSSEEvents`: like
`claimFilterMatches` except that an empty supplied `connectionIds` or
`types` list imposes no constraint. -/
def appliedFilterMatches (f : EventsFilter) (e : SSEMessage) : Bool :=
  ((sincePass f e && connPass f e) && typePass f e) && predPass f e

theorem sinceStage_eq_filter (f : EventsFilter) (l : List SSEMessage) :
    sinceStage f l = l.filter (sincePass f) := by
  unfold sinceStage sincePass
  cases hs : f.sinceTs with
  | none => simp
  | some t =>
    by_cases ht : t = 0
    · subst ht
      refine Eq.symm (List.filter_eq_self.mpr ?_)
      intro a _
      simp
    · simp [ht]

theorem connStage_eq_filter (f : EventsFilter) (l : List SSEMessage) :
    connStage f l = l.filter (connPass f) := by
  unfold connStage connPass
  cases hs : f.connectionIds with
  | none => simp
  | some ids =>
    cases ids with
    | nil => simp
    | cons a as => simp

theorem typeStage_eq_filter (f : EventsFilter) (l : List SSEMessage) :
    typeStage f l = l.filter (typePass f) := by
  unfold typeStage typePass
  cases hs : f.types with
  | none => simp
  | some ts =>
    cases ts with
    | nil => simp
    | cons a as => simp

theorem predStage_eq_filter (f : EventsFilter) (l : List SSEMessage) :
    predStage f l = l.filter (predPass f) := by
  unfold predStage predPass
  cases hs : f.predicate with
  | none => simp
  | some p => simp

/-- C2 amended: for every filter and every event sequence, the filtered
query returns exactly the subsequence of events satisfying the applied
conditions conjunctively — where a supplied-but-empty `connectionIds` or
`types` list imposes no constraint — preserving original relative order. -/
theorem useSSEEvents_filter_spec (f : EventsFilter) (events : List SSEMessage) :
    useSSEEvents (some f) events = events.filter (appliedFilterMatches f) := by
  show predStage f (typeStage f (connStage f (sinceStage f events)))
    = events.filter (appliedFilterMatches f)
  rw [sinceStage_eq_filter, connStage_eq_filter, typeStage_eq_filter, predStage_eq_filter]
  rw [List.filter_filter, List.filter_filter, List.filter_filter]
  refine List.filter_congr ?_
  intro a _
  unfold appliedFilterMatches
  cases sincePass f a <;> cases connPass f a <;> cases typePass f a <;>
    cases predPass f a <;> simp

/-- The match test of the `useSSEEvent` loop body: connection id in the
requested id set, and type in the requested type set (any type when the
type argument is unspecified). The hook's single-id and single-type call
forms are the singleton-list cases. -/
def eventMatches (connectionIds : List String) (types : Option (List String))
    (e : SSEMessage) : Bool :=
  connectionIds.contains e.connectionId
    && (match types with
        | some ts => ts.contains e.type
        | none => true)

/-- Selector body of `useSSEEvent`: scans the event log from newest to
oldest (the source loop runs `i` from `arr.length - 1` down to `0`) and
returns the first event passing `eventMatches`. -/
def useSSEEvent (connectionIds : List String) (types : Option (List String))
    (events : List SSEMessage) : Option SSEMessage :=
  events.reverse.find? (eventMatches connectionIds types)

theorem find?_eq_some_split {α : Type} {p : α → Bool} :
    ∀ {l : List α} {b : α}, l.find? p = some b →
      p b = true ∧ ∃ l₁ l₂, l = l₁ ++ b :: l₂ ∧ ∀ a ∈ l₁, p a = false := by
  intro l
  induction l with
  | nil => intro b h; simp at h
  | cons a t ih =>
    intro b h
    rw [List.find?_cons] at h
    cases hpa : p a with
    | true =>
      rw [hpa] at h
      simp only [Option.some.injEq] at h
      subst h
      exact ⟨hpa, [], t, rfl, by intro x hx; simp at hx⟩
    | false =>
      rw [hpa] at h
      obtain ⟨hb, l₁, l₂, hl, hall⟩ := ih h
      refine ⟨hb, a :: l₁, l₂, by simp [hl], ?_⟩
      intro x hx
      rcases List.mem_cons.mp hx with hx | hx
      · subst hx; exact hpa
      · exact hall x hx

/-- C3: `useSSEEvent` returns the most-recently-appended event matching the
id/type constraints — the returned event matches and no event appended
after it matches — and returns absent exactly when no event of the log
matches (in particular on an empty log). -/
theorem useSSEEvent_latest (ids : List String) (types : Option (List String))
    (l : List SSEMessage) :
    (useSSEEvent ids types l = none ↔ ∀ e ∈ l, eventMatches ids types e = false)
      ∧ (∀ e, useSSEEvent ids types l = some e →
          eventMatches ids types e = true
            ∧ ∃ pre post, l = pre ++ e :: post
                ∧ ∀ x ∈ post, eventMatches ids types x = false) := by
  constructor
  · rw [useSSEEvent, List.find?_eq_none]
    constructor
    · intro h e he
      have := h e (List.mem_reverse.mpr he)
      simpa using this
    · intro h e he
      have := h e (List.mem_reverse.mp he)
      simp [this]
  · intro e h
    obtain ⟨hm, l₁, l₂, hl, hall⟩ := find?_eq_some_split h
    refine ⟨hm, l₂.reverse, l₁.reverse, ?_, ?_⟩
    · have := congrArg List.reverse hl
      simpa using this
    · intro x hx
      exact hall x (List.mem_reverse.mp hx)

/-- Scan of the `useLiveSSEEvent` loop over the newest-to-oldest event
sequence: stops (returns none) at the first event older than the mount
instant, otherwise returns the first event passing the match test. -/
def scanLive (since : Nat) (p : SSEMessage → Bool) :
    List SSEMessage → Option SSEMessage
  | [] => none
  | e :: rest =>
    if e.timestamp < since then none
    else if p e then some e
    else scanLive since p rest

/-- Selector body of `useLiveSSEEvent`: same newest-to-oldest scan as
`useSSEEvent`, with the recorded mount timestamp as the cutoff. -/
def useLiveSSEEvent (mountTs : Nat) (connectionIds : List String)
    (types : Option (List String)) (events : List SSEMessage) : Option SSEMessage :=
  scanLive mountTs (eventMatches connectionIds types) events.reverse

theorem scanLive_some {since : Nat} {p : SSEMessage → Bool} :
    ∀ {l : List SSEMessage} {e : SSEMessage}, scanLive since p l = some e →
      since ≤ e.timestamp ∧ p e = true := by
  intro l
  induction l with
  | nil => intro e h; simp [scanLive] at h
  | cons a t ih =>
    intro e h
    rw [scanLive] at h
    by_cases hts : a.timestamp < since
    · simp [hts] at h
    · rw [if_neg hts] at h
      by_cases hp : p a
      · rw [if_pos hp] at h
        simp only [Option.some.injEq] at h
        subst h
        exact ⟨Nat.le_of_not_lt hts, hp⟩
      · rw [if_neg hp] at h
        exact ih h

theorem scanLive_break {since : Nat} {p : SSEMessage → Bool}
    {x : SSEMessage} (hx : x.timestamp < since) :
    ∀ {m : List SSEMessage}, (∀ y ∈ m, y.timestamp < since ∨ p y = false) →
      ∀ (rest : List SSEMessage), scanLive since p (m ++ x :: rest) = none := by
  intro m
  induction m with
  | nil =>
    intro _ rest
    rw [List.nil_append, scanLive, if_pos hx]
  | cons a t ih =>
    intro h rest
    rw [List.cons_append, scanLive]
    rcases h a (List.mem_cons_self a t) with ha | ha
    · rw [if_pos ha]
    · by_cases hts : a.timestamp < since
      · rw [if_pos hts]
      · rw [if_neg hts, if_neg (by simp [ha])]
        exact ih (fun y hy => h y (List.mem_cons_of_mem a hy)) rest

/-- C4: `useLiveSSEEvent` never returns an event with timestamp below the
mount instant — any returned event has timestamp at least the mount instant
and matches the constraints — and the newest-to-oldest scan stops and
returns absent at the first event older than the mount instant, even when
that event (or an older one) matches the constraints. -/
theorem useLiveSSEEvent_since (t : Nat) (ids : List String)
    (types : Option (List String)) (l : List SSEMessage) :
    (∀ e, useLiveSSEEvent t ids types l = some e →
        t ≤ e.timestamp ∧ eventMatches ids types e = true)
      ∧ (∀ old x new, l = old ++ x :: new → x.timestamp < t →
          (∀ y ∈ new, y.timestamp < t ∨ eventMatches ids types y = false) →
          useLiveSSEEvent t ids types l = none) := by
  constructor
  · intro e h
    exact scanLive_some h
  · intro old x new hl hx hnew
    rw [useLiveSSEEvent, hl]
    have hrev : (old ++ x :: new).reverse = new.reverse ++ x :: old.reverse := by
      simp
    rw [hrev]
    exact scanLive_break hx
      (fun y hy => hnew y (List.mem_reverse.mp hy)) old.reverse

/-- C5: pushEvent appends the event to the (capacity-trimmed) log and
upserts the owning connection's entry — status becomes open, lastEvent
becomes the event, a minimal entry is created when none exists, an existing
entry keeps its id, url and error — every other connection's entry is
unchanged, and the subscriber notification fires exactly once for the
combined effect. -/
theorem pushEvent_combined_effect (C : Nat) (s : InternalState) (msg : SSEMessage) :
    (pushEvent C s msg).events = trimEvents C (s.events ++ [msg])
      ∧ (∃ c', (pushEvent C s msg).connections msg.connectionId = some c'
          ∧ c'.status = .«open» ∧ c'.lastEvent = some msg
          ∧ (s.connections msg.connectionId = none →
              c'.id = msg.connectionId ∧ c'.url = "" ∧ c'.error = none)
          ∧ (∀ c, s.connections msg.connectionId = some c →
              c'.id = c.id ∧ c'.url = c.url ∧ c'.error = c.error))
      ∧ (∀ k, k ≠ msg.connectionId → (pushEvent C s msg).connections k = s.connections k)
      ∧ notifyCount (pushEventActions C s msg) = 1 := by
  refine ⟨rfl, ?_, ?_, rfl⟩
  · cases h : s.connections msg.connectionId with
    | some c =>
      refine ⟨{ c with lastEvent := some msg, status := .«open» }, ?_, rfl, rfl, ?_, ?_⟩
      · simp [pushEvent, h]
      · intro hnone; simp [h] at hnone
      · intro c2 hc2
        cases hc2
        exact ⟨rfl, rfl, rfl⟩
    | none =>
      refine ⟨{ id := msg.connectionId, url := "", status := .«open»
                lastEvent := some msg, error := none }, ?_, rfl, rfl, ?_, ?_⟩
      · simp [pushEvent, h]
      · intro _; exact ⟨rfl, rfl, rfl⟩
      · intro c2 hc2; cases hc2
  · intro k hk
    simp [pushEvent, hk]

/-- Sample event on connection "a" used by witnesses and counterexamples. -/
def msgA : SSEMessage :=
  { connectionId := "a", type := "message", dataStr := "x=1", data := some "x=1"
    lastEventId := none, timestamp := 10, uid := some "tab-1" }

/-- Sample event on connection "b". -/
def msgB : SSEMessage :=
  { connectionId := "b", type := "update", dataStr := "x=2", data := none
    lastEventId := none, timestamp := 20, uid := some "tab-1" }

/-- Older sample event on connection "a". -/
def msgOld : SSEMessage :=
  { connectionId := "a", type := "message", dataStr := "x=0", data := none
    lastEventId := none, timestamp := 3, uid := some "tab-1" }

/-- A filter whose `connectionIds` list is supplied but empty. -/
def emptyIdsFilter : EventsFilter :=
  { connectionIds := some [], types := none, predicate := none, sinceTs := none }

/-- C2 counterexample: with a supplied-but-empty `connectionIds` list the
claimed result is the subsequence of events whose connection id lies in the
empty set — that is, no events — but the code skips the empty filter stage
and returns every event. -/
theorem useSSEEvents_empty_ids_counterexample :
    useSSEEvents (some emptyIdsFilter) [msgA] = [msgA]
      ∧ [msgA].filter (claimFilterMatches emptyIdsFilter) = []
      ∧ useSSEEvents (some emptyIdsFilter) [msgA]
          ≠ [msgA].filter (claimFilterMatches emptyIdsFilter) := by
  refine ⟨rfl, rfl, ?_⟩
  intro h
  have h2 : ([msgA] : List SSEMessage) = [] := by
    calc ([msgA] : List SSEMessage)
        = useSSEEvents (some emptyIdsFilter) [msgA] := rfl
      _ = [msgA].filter (claimFilterMatches emptyIdsFilter) := h
      _ = [] := rfl
  exact absurd h2 (by simp)

/-- Uppercase hexadecimal digit character for percent-encoding. -/
def hexDigit (n : Nat) : Char :=
  if n < 10 then Char.ofNat (48 + n) else Char.ofNat (55 + n)

/-- Characters left unescaped by the platform `encodeURIComponent`:
letters, digits, and `- _ . ! ~ * ' ( )`. -/
def isUnreservedUriChar (c : Char) : Bool :=
  (65 ≤ c.toNat && c.toNat ≤ 90) || (97 ≤ c.toNat && c.toNat ≤ 122)
    || (48 ≤ c.toNat && c.toNat ≤ 57)
    || c = '-' || c = '_' || c = '.' || c = '!' || c = '~' || c = '*'
    || c = Char.ofNat 39 || c = '(' || c = ')'

/-- UTF-8 byte sequence of a code point, for the percent-encoding model. -/
def utf8Bytes (n : Nat) : List Nat :=
  if n < 128 then [n]
  else if n < 2048 then [192 + n / 64, 128 + n % 64]
  else if n < 65536 then [224 + n / 4096, 128 + n / 64 % 64, 128 + n % 64]
  else [240 + n / 262144, 128 + n / 4096 % 64, 128 + n / 64 % 64, 128 + n % 64]

/-- Model of the platform `encodeURIComponent`: unreserved characters are
kept, every other character is percent-encoded byte by byte. -/
def encodeURIComponent (s : String) : String :=
  String.mk (s.data.foldr
    (fun c acc =>
      if isUnreservedUriChar c then c :: acc
      else (utf8Bytes c.toNat).foldr
        (fun b acc2 => Char.ofNat 37 :: hexDigit (b / 16) :: hexDigit (b % 16) :: acc2)
        acc)
    [])

/-- Splits a character list at the first occurrence of the separator,
returning the prefix and, when the separator occurs, the remainder after
it. -/
def breakAtChar (sep : Char) : List Char → List Char × Option (List Char)
  | [] => ([], none)
  | x :: xs =>
    if x = sep then ([], some xs)
    else
      let r := breakAtChar sep xs
      (x :: r.1, r.2)

/-- Splits a character list on every occurrence of the separator. -/
def splitOnChar (sep : Char) : List Char → List (List Char)
  | [] => [[]]
  | x :: xs =>
    let r := splitOnChar sep xs
    if x = sep then [] :: r
    else
      match r with
      | [] => [[x]]
      | h :: t2 => (x :: h) :: t2

/-- One query segment, split at its first equals sign into key and value
(value empty when no equals sign occurs). -/
def parsePair (seg : List Char) : String × String :=
  let r := breakAtChar '=' seg
  (String.mk r.1, String.mk (r.2.getD []))

/-- Model of WHATWG URL parsing restricted to what `buildUrl` observes: the
part before the first question mark, and the query parameters after it
(split on ampersands, empty segments skipped, each segment split at its
first equals sign). Fragments and percent-decoding are outside the model. -/
def parseUrl (urlStr : String) : String × List (String × String) :=
  let r := breakAtChar '?' urlStr.data
  match r.2 with
  | none => (String.mk r.1, [])
  | some q =>
    (String.mk r.1,
      (splitOnChar '&' q).filterMap
        (fun seg => if seg.isEmpty then none else some (parsePair seg)))

/-- Model of `URLSearchParams.set` (WHATWG): when the key is already
present, the first occurrence's value is replaced in place — keeping its
position — and later occurrences of the key are removed; otherwise the
pair is appended at the end. -/
def searchParamsSet : List (String × String) → String → String → List (String × String)
  | [], k, v => [(k, v)]
  | p :: ps, k, v =>
    if p.1 = k then (k, v) :: ps.filter (fun q => q.1 ≠ k)
    else p :: searchParamsSet ps k v

/-- Array.prototype.join with the given separator. -/
def joinParts (sep : String) : List String → String
  | [] => ""
  | [p] => p
  | p :: ps => p ++ sep ++ joinParts sep ps

/-- Model of `URL.toString`: the base followed by the serialized query
parameters when any are present. -/
def serializeUrl (base : String) (ps : List (String × String)) : String :=
  match ps with
  | [] => base
  | _ =>
    base ++ "?"
      ++ joinParts "&"
          (ps.map (fun p => encodeURIComponent p.1 ++ "=" ++ encodeURIComponent p.2))

/-- Query-parameter list produced by the primary path of
`SSEManager.buildUrl`: parse the URL, then
`if (uid) url.searchParams.set("uid", uid)` and
`if (token) url.searchParams.set(tokenQueryParam || "authToken", token)`. -/
def buildUrlParams (urlStr uid token tokenQueryParam : String) :
    List (String × String) :=
  let ps := (parseUrl urlStr).2
  let ps1 := if uid ≠ "" then searchParamsSet ps "uid" uid else ps
  if token ≠ "" then
    searchParamsSet ps1 (if tokenQueryParam ≠ "" then tokenQueryParam else "authToken") token
  else ps1

/-- Primary path of `SSEManager.buildUrl` (the URL-constructor branch). -/
def buildUrl (urlStr uid token tokenQueryParam : String) : String :=
  serializeUrl (parseUrl urlStr).1 (buildUrlParams urlStr uid token tokenQueryParam)

/-- JavaScript `urlStr.includes("?")`. -/
def hasQueryMark (s : String) : Bool :=
  s.data.contains '?'

/-- JavaScript `endsWith`, transcribed over character lists. -/
def strEndsWith (s suffix : String) : Bool :=
  suffix.data.isSuffixOf s.data

/-- Fallback path of `SSEManager.buildUrl`: manual query-string append used
when the URL constructor throws, joining with a question mark when the URL
has no query string yet and otherwise with an ampersand (or nothing when
the URL already ends in a question mark or ampersand). -/
def buildUrlFallback (urlStr uid token tokenQueryParam : String) : String :=
  let parts :=
    (if uid ≠ "" then ["uid=" ++ encodeURIComponent uid] else [])
      ++ (if token ≠ "" then
            [encodeURIComponent (if tokenQueryParam ≠ "" then tokenQueryParam else "authToken")
              ++ "=" ++ encodeURIComponent token]
          else [])
  if hasQueryMark urlStr = false then
    urlStr ++ "?" ++ joinParts "&" parts
  else
    let sep := if strEndsWith urlStr "?" || strEndsWith urlStr "&" then "" else "&"
    urlStr ++ sep ++ joinParts "&" parts

theorem searchParamsSet_of_not_mem {ps : List (String × String)} {k : String}
    (h : ∀ p ∈ ps, p.1 ≠ k) (v : String) :
    searchParamsSet ps k v = ps ++ [(k, v)] := by
  induction ps with
  | nil => rfl
  | cons p ps ih =>
    rw [searchParamsSet]
    rw [if_neg (h p (List.mem_cons_self p ps))]
    rw [ih (fun q hq => h q (List.mem_cons_of_mem p hq))]
    rfl

theorem mem_of_mem_searchParamsSet {k v : String} :
    ∀ {ps : List (String × String)} {q : String × String},
      q ∈ searchParamsSet ps k v → q = (k, v) ∨ q ∈ ps := by
  intro ps
  induction ps with
  | nil =>
    intro q hq
    rw [searchParamsSet] at hq
    simp at hq
    exact Or.inl hq
  | cons p ps ih =>
    intro q hq
    rw [searchParamsSet] at hq
    by_cases hp : p.1 = k
    · rw [if_pos hp] at hq
      rcases List.mem_cons.mp hq with hq | hq
      · exact Or.inl hq
      · exact Or.inr (List.mem_cons_of_mem p (List.mem_of_mem_filter hq))
    · rw [if_neg hp] at hq
      rcases List.mem_cons.mp hq with hq | hq
      · exact Or.inr (by rw [hq]; exact List.mem_cons_self p ps)
      · rcases ih hq with hq | hq
        · exact Or.inl hq
        · exact Or.inr (List.mem_cons_of_mem p hq)

theorem searchParamsSet_split (k v : String) :
    ∀ (ps : List (String × String)),
      ∃ a b, searchParamsSet ps k v = a ++ (k, v) :: b
        ∧ ∀ p ∈ a, p.1 ≠ k ∧ p ∈ ps := by
  intro ps
  induction ps with
  | nil => exact ⟨[], [], rfl, by intro p hp; simp at hp⟩
  | cons p ps ih =>
    by_cases hp : p.1 = k
    · refine ⟨[], ps.filter (fun q => q.1 ≠ k), ?_, by intro x hx; simp at hx⟩
      rw [searchParamsSet, if_pos hp]
      rfl
    · obtain ⟨a, b, heq, hall⟩ := ih
      refine ⟨p :: a, b, ?_, ?_⟩
      · rw [searchParamsSet, if_neg hp, heq]
        rfl
      · intro x hx
        rcases List.mem_cons.mp hx with hx | hx
        · subst hx; exact ⟨hp, List.mem_cons_self x ps⟩
        · obtain ⟨h1, h2⟩ := hall x hx
          exact ⟨h1, List.mem_cons_of_mem p h2⟩

/-- C6 amended: for every base URL whose query parameters do not already
contain the credential key (and a credential key that is neither empty nor
"uid"), with non-empty identity and credential, the primary path places a
uid parameter strictly before the credential parameter; and the fallback
path always emits the identity parameter first, joining with a question
mark when the base URL has no query string and with an ampersand (or
nothing after a trailing separator) otherwise. -/
theorem buildUrl_identity_before_credential (urlStr uid token key : String)
    (hu : uid ≠ "") (ht : token ≠ "") (hk : key ≠ "uid") (hk0 : key ≠ "")
    (hfresh : ∀ p ∈ (parseUrl urlStr).2, p.1 ≠ key) :
    (∃ a b v, buildUrlParams urlStr uid token key = a ++ ("uid", v) :: b
        ∧ (∀ p ∈ a, p.1 ≠ key) ∧ ((key, token) ∈ b))
      ∧ buildUrlFallback urlStr uid token key
          = urlStr
            ++ (if hasQueryMark urlStr = false then "?"
                else if (strEndsWith urlStr "?" || strEndsWith urlStr "&") = true
                  then "" else "&")
            ++ ("uid=" ++ encodeURIComponent uid ++ "&"
                ++ (encodeURIComponent key ++ "=" ++ encodeURIComponent token)) := by
  constructor
  · have hps1 : buildUrlParams urlStr uid token key
        = searchParamsSet (searchParamsSet (parseUrl urlStr).2 "uid" uid) key token := by
      simp [buildUrlParams, hu, ht, hk0]
    have hnot : ∀ p ∈ searchParamsSet (parseUrl urlStr).2 "uid" uid, p.1 ≠ key := by
      intro p hp
      rcases mem_of_mem_searchParamsSet hp with hp | hp
      · rw [hp]
        intro hcon
        exact hk hcon.symm
      · exact hfresh p hp
    obtain ⟨a, b, heq, hall⟩ := searchParamsSet_split "uid" uid (parseUrl urlStr).2
    refine ⟨a, b ++ [(key, token)], uid, ?_, ?_, ?_⟩
    · rw [hps1, searchParamsSet_of_not_mem hnot, heq]
      simp
    · intro p hp
      exact hfresh p (hall p hp).2
    · simp
  · simp only [buildUrlFallback]
    rw [if_pos hu, if_pos ht, if_pos hk0]
    by_cases hq : hasQueryMark urlStr = false
    · rw [if_pos hq, if_pos hq]
      rfl
    · rw [if_neg hq, if_neg hq]
      by_cases hend : (strEndsWith urlStr "?" || strEndsWith urlStr "&") = true
      · rw [if_pos hend]
        rfl
      · rw [if_neg hend]
        rfl

/-- C6 counterexample: when the base URL already carries the credential
parameter, `URLSearchParams.set` replaces its value in place, so the
credential parameter keeps its original position before the appended uid
parameter — the constructed URL does not place the identity parameter
first. -/
theorem buildUrl_order_counterexample :
    buildUrl "https://x/sse?authToken=old" "U" "T1" "authToken"
        = "https://x/sse?authToken=T1&uid=U"
      ∧ (buildUrlParams "https://x/sse?authToken=old" "U" "T1" "authToken").map Prod.fst
          = ["authToken", "uid"]
      ∧ ¬ (((buildUrlParams "https://x/sse?authToken=old" "U" "T1" "authToken").map
              Prod.fst).indexOf "uid"
            < ((buildUrlParams "https://x/sse?authToken=old" "U" "T1" "authToken").map
              Prod.fst).indexOf "authToken") := by
  refine ⟨?_, ?_, ?_⟩
  · rfl
  · rfl
  · decide

/-- Connection descriptor, from the `ConnectionConfig` interface. The
`tokenLoader` callback is not carried here: its awaited outcome is passed
to `connect` as an explicit `Except` value. -/
structure ConnectionConfig where
  id : String
  url : String
  tokenQueryParam : Option String
  connectOnMount : Option Bool
  eventTypes : Option (List String)

/-- Externally visible effects of a `connect` call: opening a transport
(`new EventSource`) for a connection, or firing the host error callback. -/
inductive ManagerEffect where
  | openTransport (id : String) (url : String)
  | onError (id : String) (err : String)
deriving DecidableEq, Repr

/-- State owned by `SSEManager`: the tracked transport handles keyed by
connection id (`this.sources`), the store, and a counter supplying fresh
handle identities. -/
structure ManagerState where
  sources : String → Option Nat
  store : InternalState
  nextHandle : Nat

/-- SSEManager.connect, through the resolution of the token promise.
`hasEventSource` is the SSR guard (`typeof window.EventSource`);
`uid` is the current client uid consumed by `buildUrl`; `tokenResult` is
the outcome of awaiting `cfg.tokenLoader()`. On token failure the error
state is recorded and the error callback fires without opening a
transport; on success the transport is opened on the built URL and
registered under the connection id. -/
def connect (hasEventSource : Bool) (uid : String) (st : ManagerState)
    (cfg : ConnectionConfig) (tokenResult : Except String String) :
    ManagerState × List ManagerEffect :=
  if hasEventSource = false then (st, [])
  else if (st.sources cfg.id).isSome then (st, [])
  else
    let connState : SSEConnectionState :=
      { id := cfg.id, url := cfg.url, status := .connecting, lastEvent := none, error := none }
    let st1 := { st with store := setConnection st.store connState }
    match tokenResult with
    | .error e =>
      let errState : SSEConnectionState :=
        { id := cfg.id, url := cfg.url, status := .error, lastEvent := none
          error := some ("token: " ++ e) }
      ({ st1 with store := setConnection st1.store errState }, [.onError cfg.id e])
    | .ok token =>
      let fullUrl := buildUrl cfg.url uid token (cfg.tokenQueryParam.getD "authToken")
      ({ st1 with
          sources := fun k => if k = cfg.id then some st1.nextHandle else st1.sources k
          nextHandle := st1.nextHandle + 1 },
        [.openTransport cfg.id fullUrl])

/-- C7: connect is idempotent — when a connection is already registered
under the descriptor's id, a second connect call returns the manager state
unchanged (same store, same tracked transports) and performs no effect. -/
theorem connect_idempotent (hasEventSource : Bool) (uid : String)
    (st : ManagerState) (cfg : ConnectionConfig) (tokenResult : Except String String)
    (h : (st.sources cfg.id).isSome = true) :
    connect hasEventSource uid st cfg tokenResult = (st, []) := by
  unfold connect
  by_cases hes : hasEventSource = false
  · rw [if_pos hes]
  · rw [if_neg hes, if_pos h]

/-- C8: when the credential loader fails, the connection's stored state
becomes status error with a message containing the failure reason, the
host error callback fires, and no transport is opened — the tracked
transport handles are unchanged and the effect trace contains no
transport-open effect; every other connection's stored state is also
unchanged. -/
theorem connect_token_failure (uid : String) (st : ManagerState)
    (cfg : ConnectionConfig) (e : String)
    (h : st.sources cfg.id = none) :
    (connect true uid st cfg (.error e)).1.sources = st.sources
      ∧ (connect true uid st cfg (.error e)).1.store.connections cfg.id
          = some { id := cfg.id, url := cfg.url, status := .error
                   lastEvent := none, error := some ("token: " ++ e) }
      ∧ (∃ p, "token: " ++ e = p ++ e)
      ∧ (connect true uid st cfg (.error e)).2 = [.onError cfg.id e]
      ∧ (∀ i u, ManagerEffect.openTransport i u ∉ (connect true uid st cfg (.error e)).2)
      ∧ (∀ k, k ≠ cfg.id →
          (connect true uid st cfg (.error e)).1.store.connections k
            = st.store.connections k) := by
  refine ⟨?_, ?_, ⟨"token: ", rfl⟩, ?_, ?_, ?_⟩
  · simp [connect, h]
  · simp [connect, h, setConnection]
  · simp [connect, h]
  · intro i u
    simp [connect, h]
  · intro k hk
    simp [connect, h, setConnection, hk]

/-- Execution context of the UID utilities: whether a window (browser)
exists, whether sessionStorage access succeeds (the try/catch), and the
value `generateUid()` would produce if invoked. -/
structure IdentityCtx where
  hasWindow : Bool
  storageAvailable : Bool
  freshUid : String
deriving DecidableEq, Repr

/-- Mutable identity state: the module-level `cachedUid` and the value
persisted in sessionStorage under the fixed key. -/
structure IdentityState where
  cachedUid : Option String
  sessionStored : Option String
deriving DecidableEq, Repr

/-- JavaScript truthiness of an optional string: null/undefined and the
empty string are falsy. -/
def jsTruthyStr (s : Option String) : Bool :=
  match s with
  | none => false
  | some v => v ≠ ""

/-- getClientUid: returns the cached uid when truthy; returns the empty
string without caching outside a browser; otherwise reads the stored uid
(generating, persisting and caching a fresh one when absent or empty), or
— when storage access throws — caches a fresh in-memory uid. -/
def getClientUid (ctx : IdentityCtx) (st : IdentityState) : String × IdentityState :=
  if jsTruthyStr st.cachedUid then (st.cachedUid.getD "", st)
  else if ctx.hasWindow = false then ("", st)
  else if ctx.storageAvailable then
    let uid0 := st.sessionStored.getD ""
    if uid0 = "" then
      (ctx.freshUid, { cachedUid := some ctx.freshUid, sessionStored := some ctx.freshUid })
    else
      (uid0, { st with cachedUid := some uid0 })
  else
    (ctx.freshUid, { st with cachedUid := some ctx.freshUid })

/-- isClientUid: false for falsy input, otherwise compares the candidate
with the result of `getClientUid()` (which may update the identity state). -/
def isClientUid (ctx : IdentityCtx) (st : IdentityState) (uid : Option String) :
    Bool × IdentityState :=
  if jsTruthyStr uid = false then (false, st)
  else
    let r := getClientUid ctx st
    (uid.getD "" == r.1, r.2)

/-- C9 amended: `isClientUid` returns false for absent or empty input; for
non-empty input it returns true exactly when the candidate equals the
current identity (the value `getClientUid` returns); and it has no side
effects on the identity state when the identity is already cached (a first
call with non-empty input may lazily create and cache the identity). -/
theorem isClientUid_spec (ctx : IdentityCtx) (st : IdentityState)
    (cand : Option String) :
    (jsTruthyStr cand = false → isClientUid ctx st cand = (false, st))
      ∧ (jsTruthyStr cand = true →
          (isClientUid ctx st cand).1 = (cand.getD "" == (getClientUid ctx st).1))
      ∧ (jsTruthyStr st.cachedUid = true → (isClientUid ctx st cand).2 = st) := by
  refine ⟨?_, ?_, ?_⟩
  · intro hf
    simp [isClientUid, hf]
  · intro ht
    simp [isClientUid, ht]
  · intro hc
    by_cases hcand : jsTruthyStr cand = false
    · simp [isClientUid, hcand]
    · simp [isClientUid, hcand, getClientUid, hc]

/-- C9 counterexample: calling `isClientUid` with a non-empty candidate in
a fresh browser context generates and caches an identity — a side effect on
the identity state; and in a non-browser context the current identity is
the empty string, yet `isClientUid` of the empty string returns false even
though the candidate equals the current identity. -/
theorem isClientUid_counterexample :
    (isClientUid ⟨true, true, "u1"⟩ ⟨none, none⟩ (some "x")).2
        ≠ (⟨none, none⟩ : IdentityState)
      ∧ (getClientUid ⟨false, true, "u1"⟩ ⟨none, none⟩).1 = ""
      ∧ (isClientUid ⟨false, true, "u1"⟩ ⟨none, none⟩ (some "")).1 = false := by
  refine ⟨?_, rfl, rfl⟩
  decide

/-- A JS connection object: key/value pairs in insertion order. Used by the
aliasing model of the store, where object and array identity matters. -/
abbrev ConnMap := List (String × SSEConnectionState)

/-- Heap for the aliasing model: allocated event arrays and allocated
connection-map objects, addressed by index. -/
structure Heap where
  arrays : List (List SSEMessage)
  objs : List ConnMap

/-- A snapshot of `this.state` holding references (not values) to its
events array and its connections object. -/
structure StateRef where
  connectionsRef : Nat
  eventsRef : Nat
deriving DecidableEq, Repr

/-- Contents of an allocated event array. -/
def Heap.getArr (h : Heap) (r : Nat) : List SSEMessage :=
  (h.arrays.getD r [])

/-- Contents of an allocated connections object. -/
def Heap.getObj (h : Heap) (r : Nat) : ConnMap :=
  (h.objs.getD r [])

/-- Allocates a fresh event array, returning its reference. -/
def allocArr (h : Heap) (a : List SSEMessage) : Nat × Heap :=
  (h.arrays.length, { h with arrays := h.arrays ++ [a] })

/-- Allocates a fresh connections object, returning its reference. -/
def allocObj (h : Heap) (m : ConnMap) : Nat × Heap :=
  (h.objs.length, { h with objs := h.objs ++ [m] })

/-- In-place overwrite of an allocated event array (the `splice` call). -/
def setArr (h : Heap) (r : Nat) (a : List SSEMessage) : Heap :=
  { h with arrays := h.arrays.set r a }

/-- JS spread-with-override `{ ...m, [k]: v }`: an existing key keeps its
position with the new value; a new key is appended. Always builds a fresh
object. -/
def objSet : ConnMap → String → SSEConnectionState → ConnMap
  | [], k, v => [(k, v)]
  | p :: ps, k, v => if p.1 = k then (k, v) :: ps else p :: objSet ps k v

/-- JS rest-destructuring `const { [k]: _removed, ...rest }`: a fresh
object without the removed key. -/
def objRemove (m : ConnMap) (k : String) : ConnMap :=
  m.filter (fun p => p.1 ≠ k)

/-- Lookup in a JS object. -/
def objGet (m : ConnMap) (k : String) : Option SSEConnectionState :=
  (m.find? (fun p => p.1 = k)).map Prod.snd

/-- The three state-mutating store operations. -/
inductive StoreOp where
  | setConn (c : SSEConnectionState)
  | removeConn (id : String)
  | push (msg : SSEMessage)

/-- The store operations in the aliasing model, transcribing how each
builds its new state: `setConnection` and `removeConnection` allocate a
fresh connections object (spread / rest-destructuring) and share the events
array by reference; `pushEvent` copies the events array
(`[...this.state.events, msg]`), splices the copy in place, and allocates a
fresh connections object with the upserted entry. -/
def applyOp (maxEvents : Nat) (h : Heap) (s : StateRef) : StoreOp → StateRef × Heap
  | .setConn c =>
    let conns := h.getObj s.connectionsRef
    let r := allocObj h (objSet conns c.id c)
    ({ connectionsRef := r.1, eventsRef := s.eventsRef }, r.2)
  | .removeConn id =>
    let conns := h.getObj s.connectionsRef
    let r := allocObj h (objRemove conns id)
    ({ connectionsRef := r.1, eventsRef := s.eventsRef }, r.2)
  | .push msg =>
    let old := h.getArr s.eventsRef
    let copy := old ++ [msg]
    let ra := allocArr h copy
    let h2 := if maxEvents < copy.length
      then setArr ra.2 ra.1 (copy.drop (copy.length - maxEvents)) else ra.2
    let conns := h2.getObj s.connectionsRef
    let newConn := match objGet conns msg.connectionId with
      | some c => { c with lastEvent := some msg, status := .«open» }
      | none =>
        { id := msg.connectionId, url := "", status := .«open»
          lastEvent := some msg, error := none }
    let ro := allocObj h2 (objSet conns msg.connectionId newConn)
    ({ connectionsRef := ro.1, eventsRef := ra.1 }, ro.2)

/-- C10: no store operation mutates previously allocated state — after any
of the three mutating operations, every already-allocated event array and
connections object (in particular those referenced by any earlier state
snapshot) has unchanged contents, so earlier snapshots remain valid
immutable views. -/
theorem applyOp_preserves_snapshots (maxEvents : Nat) (h : Heap) (s : StateRef)
    (op : StoreOp) :
    (∀ r, r < h.arrays.length →
        (applyOp maxEvents h s op).2.getArr r = h.getArr r)
      ∧ (∀ r, r < h.objs.length →
        (applyOp maxEvents h s op).2.getObj r = h.getObj r) := by
  cases op with
  | setConn c =>
    constructor
    · intro r hr
      rfl
    · intro r hr
      show ((h.objs ++ [_]).getD r []) = (h.objs.getD r [])
      rw [List.getD, List.getD, List.get?_append hr]
  | removeConn id =>
    constructor
    · intro r hr
      rfl
    · intro r hr
      show ((h.objs ++ [_]).getD r []) = (h.objs.getD r [])
      rw [List.getD, List.getD, List.get?_append hr]
  | push msg =>
    have harr : ∀ r, r < h.arrays.length →
        (applyOp maxEvents h s (.push msg)).2.getArr r = h.getArr r := by
      intro r hr
      show (applyOp maxEvents h s (.push msg)).2.getArr r = h.getArr r
      unfold applyOp
      by_cases hc : maxEvents < (h.getArr s.eventsRef ++ [msg]).length
      · simp only [if_pos hc]
        show (((h.arrays ++ [_]).set h.arrays.length _).getD r []) = (h.arrays.getD r [])
        rw [List.getD, List.getD,
          List.get?_set_ne _ _ (Nat.ne_of_gt hr), List.get?_append hr]
      · simp only [if_neg hc]
        show ((h.arrays ++ [_]).getD r []) = (h.arrays.getD r [])
        rw [List.getD, List.getD, List.get?_append hr]
    refine ⟨harr, ?_⟩
    · intro r hr
      unfold applyOp
      by_cases hc : maxEvents < (h.getArr s.eventsRef ++ [msg]).length
      · simp only [if_pos hc]
        show ((h.objs ++ [_]).getD r []) = (h.objs.getD r [])
        rw [List.getD, List.getD, List.get?_append hr]
      · simp only [if_neg hc]
        show ((h.objs ++ [_]).getD r []) = (h.objs.getD r [])
        rw [List.getD, List.getD, List.get?_append hr]

/-- Connection state sample for the heap-model witness. -/
def connStateA : SSEConnectionState :=
  { id := "a", url := "https://x/sse", status := .«open»
    lastEvent := some msgA, error := none }

/-- Manager state with a transport already registered under "a". -/
def mgrStateWithA : ManagerState :=
  { sources := fun k => if k = "a" then some 0 else none
    store := initialState, nextHandle := 1 }

/-- Fresh manager state with no registered transports. -/
def mgrState0 : ManagerState :=
  { sources := fun _ => none, store := initialState, nextHandle := 0 }

/-- Descriptor sample for connection "a". -/
def cfgA : ConnectionConfig :=
  { id := "a", url := "https://x/sse", tokenQueryParam := none
    connectOnMount := none, eventTypes := none }

/-- Identity context sample. -/
def ctxCached : IdentityCtx := ⟨true, true, "u1"⟩

/-- Identity state with a cached uid. -/
def stCached : IdentityState := ⟨some "u0", some "u0"⟩

/-- Heap sample holding one event array and one connections object. -/
def heap0 : Heap := { arrays := [[msgA]], objs := [[("a", connStateA)]] }

/-- State snapshot referencing the heap sample's array and object. -/
def stateRef0 : StateRef := ⟨0, 0⟩

theorem useSSEEvent_latest_witness :
    eventMatches ["a"] none msgA = true
      ∧ ∃ pre post, [msgOld, msgB, msgA] = pre ++ msgA :: post
          ∧ ∀ x ∈ post, eventMatches ["a"] none x = false :=
  (useSSEEvent_latest ["a"] none [msgOld, msgB, msgA]).2 msgA rfl

theorem useLiveSSEEvent_since_witness :
    (5 ≤ msgA.timestamp ∧ eventMatches ["a"] none msgA = true)
      ∧ useLiveSSEEvent 5 ["a"] none [msgA, msgOld, msgB] = none :=
  ⟨(useLiveSSEEvent_since 5 ["a"] none [msgOld, msgA]).1 msgA rfl,
   (useLiveSSEEvent_since 5 ["a"] none [msgA, msgOld, msgB]).2
     [msgA] msgOld [msgB] rfl (by decide) (by decide)⟩

theorem pushEvent_combined_effect_witness :
    (pushEvent 5 initialState msgA).connections "b" = initialState.connections "b"
      ∧ notifyCount (pushEventActions 5 initialState msgA) = 1 :=
  ⟨(pushEvent_combined_effect 5 initialState msgA).2.2.1 "b" (by decide),
   (pushEvent_combined_effect 5 initialState msgA).2.2.2⟩

theorem buildUrl_identity_before_credential_witness :
    (∃ a b v, buildUrlParams "https://x/sse?a=1" "U" "T1" "authToken"
          = a ++ ("uid", v) :: b
        ∧ (∀ p ∈ a, p.1 ≠ "authToken") ∧ (("authToken", "T1") ∈ b))
      ∧ buildUrlFallback "https://x/sse?a=1" "U" "T1" "authToken"
          = "https://x/sse?a=1"
            ++ (if hasQueryMark "https://x/sse?a=1" = false then "?"
                else if (strEndsWith "https://x/sse?a=1" "?"
                    || strEndsWith "https://x/sse?a=1" "&") = true
                  then "" else "&")
            ++ ("uid=" ++ encodeURIComponent "U" ++ "&"
                ++ (encodeURIComponent "authToken" ++ "=" ++ encodeURIComponent "T1")) :=
  buildUrl_identity_before_credential "https://x/sse?a=1" "U" "T1" "authToken"
    (by decide) (by decide) (by decide) (by decide) (by decide)

theorem connect_idempotent_witness :
    connect true "U" mgrStateWithA cfgA (Except.ok "T1") = (mgrStateWithA, []) :=
  connect_idempotent true "U" mgrStateWithA cfgA (Except.ok "T1") (by decide)

theorem connect_token_failure_witness :
    (connect true "U" mgrState0 cfgA (Except.error "boom")).1.store.connections "a"
        = some { id := "a", url := "https://x/sse", status := .error
                 lastEvent := none, error := some ("token: " ++ "boom") }
      ∧ (connect true "U" mgrState0 cfgA (Except.error "boom")).2
          = [ManagerEffect.onError "a" "boom"] :=
  ⟨(connect_token_failure "U" mgrState0 cfgA "boom" rfl).2.1,
   (connect_token_failure "U" mgrState0 cfgA "boom" rfl).2.2.2.1⟩

theorem isClientUid_spec_witness :
    isClientUid ctxCached stCached none = (false, stCached)
      ∧ (isClientUid ctxCached stCached (some "u0")).1
          = ((some "u0").getD "" == (getClientUid ctxCached stCached).1)
      ∧ (isClientUid ctxCached stCached (some "u0")).2 = stCached :=
  ⟨(isClientUid_spec ctxCached stCached none).1 rfl,
   (isClientUid_spec ctxCached stCached (some "u0")).2.1 rfl,
   (isClientUid_spec ctxCached stCached (some "u0")).2.2 rfl⟩

theorem applyOp_preserves_snapshots_witness :
    (applyOp 1 heap0 stateRef0 (StoreOp.push msgB)).2.getArr 0 = heap0.getArr 0
      ∧ (applyOp 1 heap0 stateRef0 (StoreOp.push msgB)).2.getObj 0 = heap0.getObj 0 :=
  ⟨(applyOp_preserves_snapshots 1 heap0 stateRef0 (StoreOp.push msgB)).1 0 (by decide),
   (applyOp_preserves_snapshots 1 heap0 stateRef0 (StoreOp.push msgB)).2 0 (by decide)⟩

end ReactSSE
